/-
Verification of the MyCalibreCatalog query/filter core against its
natural-language specification.

The definitions below are a shallow embedding of the TypeScript sources:
  * src/utils/search.ts      — query tokenizer (`parseQuery`), per-token
                               matcher (`matchToken`) and the boolean
                               evaluator (`advancedSearch`);
  * src/components/BookBrowser.tsx — the filter/sort pipeline
                               (`processedBooks` useMemo);
  * src/unnamed/part_000 (Dashboard) — the frequency aggregator.

JavaScript strings are modelled as Lean `String` (ASCII case folding is
used for `toLowerCase`/`toUpperCase`; the queries and fields exercised by
the spec are ASCII).  JavaScript `NaN` arising from `Date.getTime()` on an
unparseable timestamp is modelled with `Option Int` (`none` = NaN).
-/

import Mathlib

namespace Catalog

/-! ### JavaScript string primitives -/

/-- Whitespace as used by the tokenizer's regex class and `String.prototype.trim`
(ASCII subset: space, tab, carriage return, newline). -/
def jsWs (c : Char) : Bool := c = ' ' || c = '\t' || c = '\r' || c = '\n'

/-- Models `String.prototype.trim`: drop leading and trailing whitespace. -/
def jsTrim (s : String) : String :=
  ⟨((s.data.dropWhile jsWs).reverse.dropWhile jsWs).reverse⟩

/-- Models `String.prototype.toLowerCase` (ASCII). -/
def jsToLower (s : String) : String := ⟨s.data.map Char.toLower⟩

/-- Models `String.prototype.toUpperCase` (ASCII). -/
def jsToUpper (s : String) : String := ⟨s.data.map Char.toUpper⟩

/-- Does `needle` occur at the head of `hay`? -/
def headMatches : List Char → List Char → Bool
  | [], _ => true
  | _ :: _, [] => false
  | a :: as, b :: bs => a == b && headMatches as bs

/-- Does `needle` occur anywhere in `hay`? -/
def hasSub (needle : List Char) : List Char → Bool
  | [] => headMatches needle []
  | c :: rest => headMatches needle (c :: rest) || hasSub needle rest

/-- Models `String.prototype.includes`. -/
def strIncludes (s sub : String) : Bool := hasSub sub.data s.data

/-- Models `String.prototype.split` on a single-character separator
(empty segments are kept; `""` splits to `[""]`, as in JavaScript). -/
def splitChars (sep : Char) : List Char → List (List Char)
  | [] => [[]]
  | c :: cs =>
    if c = sep then [] :: splitChars sep cs
    else
      match splitChars sep cs with
      | [] => [[c]]
      | s :: ss => (c :: s) :: ss

def jsSplit (sep : Char) (s : String) : List String :=
  (splitChars sep s.data).map fun l => ⟨l⟩

/-- Models JavaScript `a || b` on strings (empty string is falsy). -/
def jsOrElse (a b : String) : String := if a = "" then b else a

/-! ### Data model (src/types.ts) -/

structure Book where
  id : Nat
  title : String
  title_sort : String
  authors : String
  author_sort : String
  publisher : String
  timestamp : String
  tags : List String
  formats : List String
  languages : String
deriving DecidableEq, Repr

/-! ### Query tokenizer (src/utils/search.ts, `parseQuery`)

The regex `/(-?)(?:(title|author|tag|publisher):)?(?:"([^"]+)"|([^\s]+))/gi`
is embedded as a left-to-right scanner with the engine's backtracking
order: the optional `-` and the optional field prefix are consumed
greedily and given back when no value can follow; the quoted alternative
is preferred over the non-whitespace run.  A global `exec` loop yields
successive matches; since no alternative can start on a whitespace
character, scanning skips whitespace between matches. -/

inductive TokType | term | phrase | operator
deriving DecidableEq, Repr

structure SearchToken where
  type : TokType
  value : String
  field : Option String
  negated : Bool
deriving DecidableEq, Repr

/-- One raw regex match: the four capture groups, with the quoted and
unquoted value alternatives merged into `value` plus a `quoted` flag. -/
structure RawMatch where
  negation : Bool
  field : Option String
  quoted : Bool
  value : String
deriving DecidableEq, Repr

/-- The alternative `"([^"]+)"`: a quote, one or more non-quote characters,
a closing quote. -/
def tryQuoted : List Char → Option (List Char × List Char)
  | [] => none
  | c :: cs =>
    if c = '"' then
      let v := cs.takeWhile (fun d => !(d == '"'))
      match cs.dropWhile (fun d => !(d == '"')) with
      | '"' :: rest => if v.isEmpty then none else some (v, rest)
      | _ => none
    else none

/-- The alternative `([^\s]+)`: a maximal run of non-whitespace characters. -/
def trySimple (cs : List Char) : Option (List Char × List Char) :=
  let v := cs.takeWhile (fun c => !jsWs c)
  if v.isEmpty then none else some (v, cs.dropWhile (fun c => !jsWs c))

/-- The value alternation, quoted first.  Returns the `quoted` flag, the
captured value and the remaining input. -/
def tryValue (cs : List Char) : Option (Bool × List Char × List Char) :=
  match tryQuoted cs with
  | some (v, rest) => some (true, v, rest)
  | none =>
    match trySimple cs with
    | some (v, rest) => some (false, v, rest)
    | none => none

/-- Case-insensitively match the lowercase `pat` against the head of the
input, returning the original-case characters consumed. -/
def stripName : List Char → List Char → Option (List Char × List Char)
  | [], cs => some ([], cs)
  | _, [] => none
  | p :: ps, c :: cs =>
    if c.toLower == p then (stripName ps cs).map fun r => (c :: r.1, r.2)
    else none

/-- One field-prefix alternative `name:` (case-insensitive, capture keeps
the input's original case, the colon is consumed). -/
def tryFieldOne (pat : List Char) (cs : List Char) : Option (List Char × List Char) :=
  match stripName pat cs with
  | some (cap, ':' :: rest) => some (cap, rest)
  | _ => none

/-- The field-prefix group `(?:(title|author|tag|publisher):)?`. -/
def tryField (cs : List Char) : Option (List Char × List Char) :=
  (tryFieldOne "title".data cs).orElse fun _ =>
    (tryFieldOne "author".data cs).orElse fun _ =>
      (tryFieldOne "tag".data cs).orElse fun _ =>
        tryFieldOne "publisher".data cs

/-- The regex body after the optional `-`: greedy optional field prefix,
then the value; if the field prefix consumed input but no value follows,
the engine backtracks and retries without the prefix. -/
def matchCore (cs : List Char) : Option (Option (List Char) × Bool × List Char × List Char) :=
  match tryField cs with
  | some (f, rest) =>
    match tryValue rest with
    | some (q, v, rest2) => some (some f, q, v, rest2)
    | none => (tryValue cs).map fun r => (none, r.1, r.2.1, r.2.2)
  | none => (tryValue cs).map fun r => (none, r.1, r.2.1, r.2.2)

/-- A match with no `-` consumed: `matchCore` from the current position. -/
def matchNoDash (cs : List Char) : Option (RawMatch × List Char) :=
  (matchCore cs).map fun r => (⟨false, r.1.map (⟨·⟩), r.2.1, ⟨r.2.2.1⟩⟩, r.2.2.2)

/-- One whole regex match attempt at the current position: greedy optional
`-`, given back if nothing can follow it, then `matchCore`. -/
def matchTok (cs : List Char) : Option (RawMatch × List Char) :=
  match cs with
  | c :: rest =>
    if c = '-' then
      match matchCore rest with
      | some (f, q, v, rest2) => some (⟨true, f.map (⟨·⟩), q, ⟨v⟩⟩, rest2)
      | none => matchNoDash cs
    else matchNoDash cs
  | [] => matchNoDash []

/-- The global `exec` loop: skip characters where no match can start
(whitespace), emit each match.  Every step consumes at least one
character, so `length + 1` units of fuel always suffice; the fuel only
makes the recursion structural. -/
def rawScanFuel : Nat → List Char → List RawMatch
  | 0, _ => []
  | _ + 1, [] => []
  | fuel + 1, c :: cs =>
    if jsWs c then rawScanFuel fuel cs
    else
      match matchTok (c :: cs) with
      | some (r, rest) => r :: rawScanFuel fuel rest
      | none => []

def rawScan (cs : List Char) : List RawMatch := rawScanFuel (cs.length + 1) cs

/-- The body of `parseQuery`'s while loop: turn one raw match into a token.
A bare, unquoted, unfielded `AND`/`OR`/`NOT` becomes an operator token;
otherwise a term or phrase whose `negated` flag is
`negation === '-' || upperValue === 'NOT'`, exactly as in the source. -/
def tokenOfRaw (r : RawMatch) : SearchToken :=
  let upperValue := jsToUpper r.value
  if r.field.isNone && !r.quoted &&
      (upperValue == "AND" || upperValue == "OR" || upperValue == "NOT") then
    ⟨.operator, upperValue, none, false⟩
  else
    ⟨if r.quoted then .phrase else .term, r.value, r.field,
      r.negation || (upperValue == "NOT")⟩

/-- `parseQuery` from src/utils/search.ts. -/
def parseQuery (query : String) : List SearchToken :=
  (rawScan query.data).map tokenOfRaw

/-! ### Per-token matching (src/utils/search.ts, `matchToken`) -/

/-- The inner `checkValue`: case-insensitive substring test (the source's
ternary on phrase vs term returns the same expression in both branches). -/
def checkValue (tok : SearchToken) (text : String) : Bool :=
  strIncludes (jsToLower text) (jsToLower tok.value)

/-- The inner `checkField`: a `switch` on the captured field string; any
other value (including an absent field) falls to the all-fields default. -/
def checkField (book : Book) (tok : SearchToken) : Bool :=
  match tok.field with
  | some "title" => checkValue tok book.title || checkValue tok book.title_sort
  | some "author" => checkValue tok book.authors || checkValue tok book.author_sort
  | some "tag" => book.tags.any (checkValue tok)
  | some "publisher" => checkValue tok book.publisher
  | _ =>
    checkValue tok book.title || checkValue tok book.authors ||
      book.tags.any (checkValue tok) || checkValue tok book.publisher

def matchToken (book : Book) (tok : SearchToken) : Bool :=
  if tok.negated then !(checkField book tok) else checkField book tok

/-! ### Boolean evaluator (src/utils/search.ts, `advancedSearch`) -/

/-- The `forEach` loop that splits the token list into OR-groups: `OR`
closes the current group (dropped when empty), `AND` and `NOT` operator
tokens are skipped, every other token joins the current group. -/
def splitStep (acc : List (List SearchToken) × List SearchToken) (tok : SearchToken) :
    List (List SearchToken) × List SearchToken :=
  if tok.type = .operator ∧ tok.value = "OR" then
    (if acc.2 ≠ [] then acc.1 ++ [acc.2] else acc.1, [])
  else if tok.type = .operator ∧ tok.value = "AND" then acc
  else if tok.type = .operator ∧ tok.value = "NOT" then acc
  else (acc.1, acc.2 ++ [tok])

def splitOrGroups (tokens : List SearchToken) : List (List SearchToken) :=
  let st := tokens.foldl splitStep ([], [])
  if st.2 ≠ [] then st.1 ++ [st.2] else st.1

/-- `advancedSearch` from src/utils/search.ts. -/
def advancedSearch (book : Book) (query : String) : Bool :=
  if jsTrim query = "" then true
  else
    let tokens := parseQuery query
    if tokens = [] then true
    else (splitOrGroups tokens).any fun g => g.all (matchToken book)

/-! ### Filter/sort pipeline (src/components/BookBrowser.tsx, `processedBooks`) -/

inductive SortOption | dateNewest | dateOldest | titleAsc | authorAsc
deriving DecidableEq, Repr

inductive TagLogic | and | or
deriving DecidableEq, Repr

/-- Stage 2, format filter: skipped for `'all'`, otherwise
`book.formats.some(f => f.toLowerCase() === selectedFormat)`. -/
def formatStage (selectedFormat : String) (books : List Book) : List Book :=
  if selectedFormat ≠ "all" then
    books.filter fun b => b.formats.any fun f => jsToLower f == selectedFormat
  else books

/-- The tag-stage predicate: each book tag is trimmed before comparing
with a selected tag; AND mode requires every selected tag, OR mode one. -/
def tagFilterPred (selectedTags : List String) (logic : TagLogic) (b : Book) : Bool :=
  match logic with
  | .and => selectedTags.all fun s => b.tags.any fun t => jsTrim t == s
  | .or => selectedTags.any fun s => b.tags.any fun t => jsTrim t == s

/-- Stage 3, tag filter: skipped when no tag is selected. -/
def tagStage (selectedTags : List String) (logic : TagLogic) (books : List Book) : List Book :=
  if selectedTags ≠ [] then books.filter (tagFilterPred selectedTags logic) else books

/-- Models ECMAScript `SortCompare`: a comparator result of `NaN` (here
`none`) is treated as `+0`. -/
def sortCompareNum : Option Int → Int
  | none => 0
  | some v => v

/-- The sort comparator of stage 4.  `new Date(s).getTime()` and
`String.prototype.localeCompare` are JavaScript builtins; they enter the
model as the parameters `getTime` (`none` = `NaN`, i.e. an invalid or
unparseable timestamp) and `lc`. -/
def bookCmp (getTime : String → Option Int) (lc : String → String → Int) :
    SortOption → Book → Book → Int
  | .dateNewest, a, b =>
    sortCompareNum (do return (← getTime b.timestamp) - (← getTime a.timestamp))
  | .dateOldest, a, b =>
    sortCompareNum (do return (← getTime a.timestamp) - (← getTime b.timestamp))
  | .titleAsc, a, b => lc (jsOrElse a.title_sort a.title) (jsOrElse b.title_sort b.title)
  | .authorAsc, a, b => lc (jsOrElse a.author_sort a.authors) (jsOrElse b.author_sort b.authors)

/-- Stable insertion of one element: it passes over every element it does
not strictly precede, so equal elements keep their original order. -/
def insertCmp (cmp : α → α → Int) (x : α) : List α → List α
  | [] => [x]
  | y :: ys => if cmp x y < 0 then x :: y :: ys else y :: insertCmp cmp x ys

/-- Stable sort by an integer comparator, modelling `Array.prototype.sort`
(stable per ES2019). -/
def jsStableSort (cmp : α → α → Int) (l : List α) : List α :=
  l.foldl (fun acc x => insertCmp cmp x acc) []

/-- The value computed by the `processedBooks` useMemo: the three
conditional filter stages followed by the sort. -/
def processedBooks (getTime : String → Option Int) (lc : String → String → Int)
    (books : List Book) (searchQuery selectedFormat : String)
    (selectedTags : List String) (tagLogic : TagLogic) (sortBy : SortOption) : List Book :=
  let f1 := if jsTrim searchQuery ≠ "" then
      books.filter (fun b => advancedSearch b searchQuery) else books
  let f2 := formatStage selectedFormat f1
  let f3 := tagStage selectedTags tagLogic f2
  jsStableSort (bookCmp getTime lc sortBy) f3

/-- The state of the caller's `books` array after `processedBooks` runs.
`Array.prototype.filter` allocates a fresh array, but each of the three
filter stages is conditionally skipped; when all three are skipped,
`filtered` still aliases the `books` prop, and the final in-place
`Array.prototype.sort` call mutates `books` itself. -/
def booksAfterProcessedBooks (getTime : String → Option Int) (lc : String → String → Int)
    (books : List Book) (searchQuery selectedFormat : String)
    (selectedTags : List String) (_tagLogic : TagLogic) (sortBy : SortOption) : List Book :=
  if jsTrim searchQuery ≠ "" ∨ selectedFormat ≠ "all" ∨ selectedTags ≠ [] then books
  else jsStableSort (bookCmp getTime lc sortBy) books

/-! ### Aggregator (src/unnamed/part_000, Dashboard `stats` useMemo) -/

/-- Models `obj[k] = (obj[k] || 0) + 1` on a plain object whose string
keys enumerate in insertion order. -/
def bump : List (String × Nat) → String → List (String × Nat)
  | [], k => [(k, 1)]
  | (k', n) :: t, k => if k' = k then (k', n + 1) :: t else (k', n) :: bump t k

/-- Per-book author counting: split on `&`, trim, skip empty segments. -/
def dashboardAuthorStep (counts : List (String × Nat)) (b : Book) : List (String × Nat) :=
  (jsSplit '&' b.authors).foldl
    (fun acc a => let clean := jsTrim a; if clean ≠ "" then bump acc clean else acc) counts

def authorCounts (books : List Book) : List (String × Nat) :=
  books.foldl dashboardAuthorStep []

/-- Per-book language counting: `book.languages ? split(',') : ['Unknown']`
(empty string is falsy), each entry trimmed, empty entries kept. -/
def dashboardLangStep (counts : List (String × Nat)) (b : Book) : List (String × Nat) :=
  let langs := if b.languages ≠ "" then jsSplit ',' b.languages else ["Unknown"]
  langs.foldl (fun acc l => bump acc (jsTrim l)) counts

def langCounts (books : List Book) : List (String × Nat) :=
  books.foldl dashboardLangStep []

/-! ### Spec-side definitions, for comparison with the code

These two definitions follow the specification's words, not the source;
the claim theorems compare them with the embedded code. -/

/-- Spec wording for the format stage: "`record.formats` contains `format`
under case-insensitive comparison". -/
def ciEqual (a b : String) : Bool := jsToLower a == jsToLower b

/-- Spec wording for the newest-first comparator: "invalid/unparseable
timestamps sort as the oldest possible value", i.e. an invalid timestamp
orders after every valid one (and ties with other invalid ones). -/
def specNewestCmp (getTime : String → Option Int) (a b : Book) : Int :=
  match getTime a.timestamp, getTime b.timestamp with
  | some ta, some tb => tb - ta
  | some _, none => -1
  | none, some _ => 1
  | none, none => 0

/-! ### Helper lemmas -/

lemma jsTrim_of_all_ws (s : String) (h : ∀ c ∈ s.data, jsWs c = true) :
    jsTrim s = "" := by
  have h1 : s.data.dropWhile jsWs = [] := List.dropWhile_eq_nil_iff.mpr h
  simp [jsTrim, h1]

lemma exists_nonWs_of_jsTrim_ne (s : String) (h : jsTrim s ≠ "") :
    ∃ c ∈ s.data, jsWs c = false := by
  by_contra hc
  push_neg at hc
  exact h (jsTrim_of_all_ws s fun c hcm => by
    have := hc c hcm
    revert this
    cases jsWs c <;> simp)

lemma trySimple_isSome (c : Char) (cs : List Char) (h : jsWs c = false) :
    (trySimple (c :: cs)).isSome := by
  simp [trySimple, List.takeWhile_cons, h]

lemma tryValue_isSome (c : Char) (cs : List Char) (h : jsWs c = false) :
    (tryValue (c :: cs)).isSome := by
  rw [tryValue]
  cases hq : tryQuoted (c :: cs) with
  | some p => simp
  | none =>
    have hs := trySimple_isSome c cs h
    cases hss : trySimple (c :: cs) with
    | some p => simp
    | none => rw [hss] at hs; simp at hs

lemma matchCore_isSome (c : Char) (cs : List Char) (h : jsWs c = false) :
    (matchCore (c :: cs)).isSome := by
  rw [matchCore]
  cases hf : tryField (c :: cs) with
  | some p =>
    obtain ⟨f, rest⟩ := p
    cases hv : tryValue rest with
    | some q => obtain ⟨q1, q2, q3⟩ := q; simp [hv]
    | none =>
      have hs := tryValue_isSome c cs h
      cases hss : tryValue (c :: cs) with
      | some q => simp [hv, hss]
      | none => rw [hss] at hs; simp at hs
  | none =>
    have hs := tryValue_isSome c cs h
    cases hss : tryValue (c :: cs) with
    | some q => simp [hss]
    | none => rw [hss] at hs; simp at hs

lemma matchTok_isSome (c : Char) (cs : List Char) (h : jsWs c = false) :
    (matchTok (c :: cs)).isSome := by
  have hnd : (matchNoDash (c :: cs)).isSome := by
    rw [matchNoDash]
    have hs := matchCore_isSome c cs h
    cases hss : matchCore (c :: cs) with
    | some q => simp
    | none => rw [hss] at hs; simp at hs
  rw [matchTok]
  by_cases hc : c = '-'
  · subst hc
    cases hm : matchCore cs with
    | some q => obtain ⟨f, qd, v, rest⟩ := q; simp [hm]
    | none => simp [hm, hnd]
  · simp only [if_neg hc]
    exact hnd

lemma rawScanFuel_ne_nil (fuel : Nat) (l : List Char) (hl : l.length < fuel)
    (h : ∃ c ∈ l, jsWs c = false) : rawScanFuel fuel l ≠ [] := by
  induction fuel generalizing l with
  | zero => omega
  | succ n ih =>
    cases l with
    | nil => simp at h
    | cons c cs =>
      rw [rawScanFuel]
      by_cases hws : jsWs c = true
      · rw [if_pos hws]
        obtain ⟨c', hc', hcw⟩ := h
        rcases List.mem_cons.mp hc' with hc' | hc'
        · subst hc'; rw [hws] at hcw; exact absurd hcw (by simp)
        · exact ih cs (by simp at hl ⊢; omega) ⟨c', hc', hcw⟩
      · have hnw : jsWs c = false := by revert hws; cases jsWs c <;> simp
        rw [if_neg hws]
        have hsome := matchTok_isSome c cs hnw
        cases hm : matchTok (c :: cs) with
        | some p => obtain ⟨r, rest⟩ := p; simp
        | none => rw [hm] at hsome; simp at hsome

lemma parseQuery_ne_nil (q : String) (hq : jsTrim q ≠ "") : parseQuery q ≠ [] := by
  rw [parseQuery, rawScan]
  intro hmap
  rw [List.map_eq_nil_iff] at hmap
  exact rawScanFuel_ne_nil (q.data.length + 1) q.data (by omega)
    (exists_nonWs_of_jsTrim_ne q hq) hmap

lemma parseQuery_operator_value (q : String) (t : SearchToken)
    (ht : t ∈ parseQuery q) (hop : t.type = .operator) :
    t.value = "AND" ∨ t.value = "OR" ∨ t.value = "NOT" := by
  obtain ⟨r, _, rfl⟩ := List.mem_map.mp ht
  rw [tokenOfRaw] at hop ⊢
  split
  next hcond =>
    simp at hcond ⊢
    tauto
  next hcond =>
    exfalso
    split at hop
    next hcond2 => exact hcond hcond2
    next => cases hq : r.quoted <;> simp [hq] at hop

lemma foldl_splitStep_ops (tokens : List SearchToken) (gs : List (List SearchToken))
    (h : ∀ t ∈ tokens, t.type = .operator ∧
      (t.value = "AND" ∨ t.value = "OR" ∨ t.value = "NOT")) :
    tokens.foldl splitStep (gs, []) = (gs, []) := by
  induction tokens generalizing gs with
  | nil => rfl
  | cons t ts ih =>
    obtain ⟨hty, hv⟩ := h t (by simp)
    have hstep : splitStep (gs, []) t = (gs, []) := by
      rcases hv with hv | hv | hv <;> simp [splitStep, hty, hv]
    rw [List.foldl_cons, hstep]
    exact ih gs fun t' ht' => h t' (by simp [ht'])

lemma splitOrGroups_all_ops (tokens : List SearchToken)
    (h : ∀ t ∈ tokens, t.type = .operator ∧
      (t.value = "AND" ∨ t.value = "OR" ∨ t.value = "NOT")) :
    splitOrGroups tokens = [] := by
  rw [splitOrGroups, foldl_splitStep_ops tokens [] h]
  simp

lemma foldl_trimBump (l : List String) (counts : List (String × Nat)) :
    l.foldl (fun acc a => let clean := jsTrim a;
        if clean ≠ "" then bump acc clean else acc) counts
      = ((l.map jsTrim).filter fun s => !(s == "")).foldl bump counts := by
  induction l generalizing counts with
  | nil => rfl
  | cons a l ih =>
    simp only [List.foldl_cons, List.map_cons, List.filter_cons]
    by_cases h : jsTrim a = ""
    · rw [if_neg (not_not_intro h), ih, if_neg (by simp [h])]
    · rw [if_pos h, ih, if_pos (by simp [h]), List.foldl_cons]

/-! ### Concrete records and oracle instances for witnesses -/

def sampleBook : Book :=
  ⟨1, "Foundation", "Foundation", "Isaac Asimov", "Asimov, Isaac", "Gnome Press",
    "2020-01-01", ["scifi"], ["epub"], "en"⟩

/-- A record whose title contains `xyz` but that carries no tags. -/
def noTagBook : Book :=
  ⟨2, "xyz stories", "xyz stories", "Ann", "Ann", "Pub", "2020-01-01", [], ["epub"], "en"⟩

/-- A concrete instantiation of the `new Date(..).getTime()` oracle. -/
def exGetTime : String → Option Int := fun s =>
  if s = "2020-01-01" then some 1000
  else if s = "2021-01-01" then some 2000
  else none

/-- A concrete instantiation of the `localeCompare` oracle. -/
def exLc : String → String → Int := fun _ _ => 0

def bkOld : Book := ⟨3, "Old", "", "A", "", "P", "2020-01-01", [], [], ""⟩

def bkNew : Book := ⟨4, "New", "", "B", "", "P", "2021-01-01", [], [], ""⟩

/-- A record with an unparseable timestamp. -/
def bkBad : Book := ⟨5, "Bad", "", "C", "", "P", "not-a-date", [], [], ""⟩

def bkEp : Book := ⟨6, "Ep", "", "D", "", "P", "2020-01-01", [], ["EPUB"], ""⟩

def annBook : Book := ⟨7, "T", "", "Ann Lee & Bo Kim", "", "P", "2020-01-01", [], [], ""⟩

def oneTagBook : Book := ⟨8, "T", "", "A", "", "P", "2020-01-01", ["s1"], [], ""⟩

/-! ### Claim theorems -/

/-- C1, counterexample: the claim says a non-operator token's `negated` flag
is true iff a leading `-` was present, but the query `tag:NOT` — which
contains no `-` at all — produces a field-scoped token with
`negated = true`, because `parseQuery` also sets the flag when the value
uppercases to `NOT`. -/
theorem C1_counterexample :
    parseQuery "tag:NOT" = [⟨.term, "NOT", some "tag", true⟩] ∧
    ∀ c ∈ "tag:NOT".data, c ≠ '-' := by
  decide

/-- C1, amended: a non-operator token's `negated` flag is true iff its match
carried the `-` prefix or its value uppercases to `"NOT"` (which a
field-scoped or quoted token can carry without any `-`). -/
theorem C1_amended (q : String) (tok : SearchToken) (htok : tok ∈ parseQuery q)
    (hop : tok.type ≠ .operator) :
    tok.negated = true ↔
      ∃ r ∈ rawScan q.data, tokenOfRaw r = tok ∧
        (r.negation = true ∨ jsToUpper r.value = "NOT") := by
  constructor
  · intro hneg
    obtain ⟨r, hr, htr⟩ := List.mem_map.mp htok
    refine ⟨r, hr, htr, ?_⟩
    rw [← htr, tokenOfRaw] at hneg
    split at hneg
    next => simp at hneg
    next => simpa using hneg
  · rintro ⟨r, hr, htr, hdisj⟩
    rw [← htr] at hop ⊢
    rw [tokenOfRaw] at hop ⊢
    split
    next hcond => rw [if_pos hcond] at hop; simp at hop
    next hcond =>
      show (r.negation || (jsToUpper r.value == "NOT")) = true
      simp only [Bool.or_eq_true, beq_iff_eq]
      exact hdisj

/-- C1, witness for the amended theorem at the query `"-a"`. -/
theorem C1_amended_witness :
    (⟨.term, "a", none, true⟩ : SearchToken).negated = true ↔
      ∃ r ∈ rawScan "-a".data, tokenOfRaw r = ⟨.term, "a", none, true⟩ ∧
        (r.negation = true ∨ jsToUpper r.value = "NOT") :=
  C1_amended "-a" ⟨.term, "a", none, true⟩ (by decide) (by decide)

/-- C2, the code evaluated at the failing input: the spec says a field
prefix in any letter case binds matching to that field only, but for the
query `TAG:xyz` — against a record with no tags at all whose title contains
`xyz` — `matchToken`'s case-sensitive switch on the captured field `"TAG"`
falls through to the all-fields branch and the record matches via its
title; the lowercase `tag:xyz` correctly fails to match. -/
theorem C2_fieldCaseBug :
    parseQuery "TAG:xyz" = [⟨.term, "xyz", some "TAG", false⟩] ∧
    noTagBook.tags = [] ∧
    advancedSearch noTagBook "TAG:xyz" = true ∧
    advancedSearch noTagBook "tag:xyz" = false := by
  decide

/-- C3, the code evaluated at the failing input: with a blank query, format
`'all'` and no selected tags, all three filter stages are skipped, so
`filtered` still aliases the caller's `books` array and the in-place sort
reorders that array itself — the pipeline does not leave the input record
array unchanged. -/
theorem C3_mutation :
    booksAfterProcessedBooks exGetTime exLc [bkOld, bkNew] "" "all" [] .and .dateNewest
      = [bkNew, bkOld] ∧
    ([bkNew, bkOld] : List Book) ≠ [bkOld, bkNew] := by
  decide

/-- C4: the evaluator partitions the token sequence into groups split on
`OR` operator tokens, `AND` operator tokens are no-ops, and a record
matches a non-blank query iff some group has all of its tokens matching;
`"a AND b OR c"` yields exactly the groups `[a, b]` and `[c]`. -/
theorem C4_orOfAndGroups (book : Book) (q : String) (hq : jsTrim q ≠ "") :
    splitOrGroups (parseQuery "a AND b OR c") =
      [[⟨.term, "a", none, false⟩, ⟨.term, "b", none, false⟩],
       [⟨.term, "c", none, false⟩]] ∧
    (advancedSearch book q = true ↔
      ∃ g ∈ splitOrGroups (parseQuery q), ∀ t ∈ g, matchToken book t = true) := by
  refine ⟨by decide, ?_⟩
  have hne := parseQuery_ne_nil q hq
  simp only [advancedSearch, if_neg hq, if_neg hne, List.any_eq_true, List.all_eq_true]

/-- C4, witness at the query `"a AND b OR c"`. -/
theorem C4_witness :
    splitOrGroups (parseQuery "a AND b OR c") =
      [[⟨.term, "a", none, false⟩, ⟨.term, "b", none, false⟩],
       [⟨.term, "c", none, false⟩]] ∧
    (advancedSearch sampleBook "a AND b OR c" = true ↔
      ∃ g ∈ splitOrGroups (parseQuery "a AND b OR c"),
        ∀ t ∈ g, matchToken sampleBook t = true) :=
  C4_orOfAndGroups sampleBook "a AND b OR c" (by decide)

/-- C5: an empty or whitespace-only query matches every record. -/
theorem C5_blankMatchesAll (b : Book) (q : String) (h : ∀ c ∈ q.data, jsWs c = true) :
    advancedSearch b q = true := by
  simp [advancedSearch, jsTrim_of_all_ws q h]

/-- C5, witness at the query `" "`. -/
theorem C5_witness : advancedSearch sampleBook " " = true :=
  C5_blankMatchesAll sampleBook " " (by decide)

/-- C6: the format stage is the identity for `'all'`; for any other
selectable format `F` — the UI builds the format list lowercased, so every
selectable `F` satisfies `jsToLower F = F` — it keeps exactly the records
whose formats contain `F` under case-insensitive comparison. -/
theorem C6_formatStage :
    (∀ books, formatStage "all" books = books) ∧
    ∀ (F : String) (books : List Book), F ≠ "all" → jsToLower F = F →
      formatStage F books = books.filter fun b => b.formats.any fun f => ciEqual f F := by
  constructor
  · intro books; simp [formatStage]
  · intro F books hne hlow
    simp only [formatStage, if_pos hne, ciEqual, hlow]

/-- C6, witness: the format `"epub"` against a record listing `"EPUB"`. -/
theorem C6_witness :
    formatStage "epub" [bkEp] = [bkEp].filter fun b => b.formats.any fun f => ciEqual f "epub" :=
  C6_formatStage.2 "epub" [bkEp] (by decide) (by decide)

/-- C7, amended: under the newest-first or oldest-first key a comparison
involving a record whose timestamp is unparseable evaluates to `NaN`, which
`SortCompare` treats as `+0` — such records tie with every record (and so
keep their relative position under the stable sort) instead of sorting as
the oldest possible value; no comparison throws. -/
theorem C7_amended (getTime : String → Option Int) (lc : String → String → Int)
    (k : SortOption) (a b : Book) (hk : k = .dateNewest ∨ k = .dateOldest)
    (ha : getTime a.timestamp = none) :
    bookCmp getTime lc k a b = 0 ∧ bookCmp getTime lc k b a = 0 := by
  rcases hk with rfl | rfl <;>
    cases hb : getTime b.timestamp <;>
      simp [bookCmp, sortCompareNum, ha, hb]

/-- C7, witness for the amended theorem at a concrete oracle and records. -/
theorem C7_amended_witness :
    bookCmp exGetTime exLc .dateNewest bkBad bkOld = 0 ∧
    bookCmp exGetTime exLc .dateNewest bkOld bkBad = 0 :=
  C7_amended exGetTime exLc .dateNewest bkBad bkOld (Or.inl rfl) (by decide)

/-- C7, counterexample: sorting `[bkBad, bkOld]` newest-first, the record
with the unparseable timestamp stays first — it ties with everything —
whereas the spec's "invalid timestamps sort as the oldest possible value"
comparator (`specNewestCmp`) would place it last. -/
theorem C7_counterexample :
    jsStableSort (bookCmp exGetTime exLc .dateNewest) [bkBad, bkOld] = [bkBad, bkOld] ∧
    jsStableSort (specNewestCmp exGetTime) [bkBad, bkOld] = [bkOld, bkBad] ∧
    exGetTime bkBad.timestamp = none ∧
    ([bkBad, bkOld] : List Book) ≠ [bkOld, bkBad] := by
  decide

/-- C8: the tag stage trims each record tag before comparing with the
already-trimmed selected tags; with selected tags `{S1, S2}` a record
tagged only `S1` is excluded in AND mode and included in OR mode; an empty
selection leaves the input unchanged; in general AND mode keeps a record
iff it carries every selected tag and OR mode iff it carries at least
one. -/
theorem C8_tagStage :
    (∀ logic books, tagStage [] logic books = books) ∧
    (∀ (S1 S2 : String) (b : Book), jsTrim S1 = S1 → jsTrim S2 = S2 → S1 ≠ S2 →
      b.tags = [S1] →
      tagStage [S1, S2] .and [b] = [] ∧ tagStage [S1, S2] .or [b] = [b]) ∧
    ∀ sel logic b, tagFilterPred sel logic b = true ↔
      match logic with
      | .and => ∀ s ∈ sel, ∃ t ∈ b.tags, jsTrim t = s
      | .or => ∃ s ∈ sel, ∃ t ∈ b.tags, jsTrim t = s := by
  refine ⟨fun logic books => by simp [tagStage], fun S1 S2 b h1 h2 hne hb => ?_, ?_⟩
  · constructor <;> simp [tagStage, tagFilterPred, hb, h1, h2, hne]
  · intro sel logic b
    cases logic <;>
      simp [tagFilterPred, List.all_eq_true, List.any_eq_true, beq_iff_eq]

/-- C8, witness at selected tags `{"s1", "s2"}` and a record tagged `"s1"`. -/
theorem C8_witness :
    tagStage ["s1", "s2"] .and [oneTagBook] = [] ∧
    tagStage ["s1", "s2"] .or [oneTagBook] = [oneTagBook] :=
  C8_tagStage.2.1 "s1" "s2" oneTagBook (by decide) (by decide) (by decide) rfl

/-- C9: the aggregator splits each record's authors string on `&`, trims,
discards empty segments and counts by the trimmed string; the authors field
`"Ann Lee & Bo Kim"` contributes one count each to `"Ann Lee"` and
`"Bo Kim"`; an empty languages field contributes exactly one count to
`"Unknown"`, otherwise the languages are split on `,` and trimmed before
counting. -/
theorem C9_aggregation :
    (∀ counts (b : Book), b.authors = "Ann Lee & Bo Kim" →
      dashboardAuthorStep counts b = bump (bump counts "Ann Lee") "Bo Kim") ∧
    (∀ counts (b : Book), b.languages = "" →
      dashboardLangStep counts b = bump counts "Unknown") ∧
    (∀ counts (b : Book), b.languages ≠ "" →
      dashboardLangStep counts b =
        (jsSplit ',' b.languages).foldl (fun acc l => bump acc (jsTrim l)) counts) ∧
    ∀ counts (b : Book), dashboardAuthorStep counts b =
      (((jsSplit '&' b.authors).map jsTrim).filter fun s => !(s == "")).foldl bump counts := by
  refine ⟨fun counts b hb => ?_, fun counts b hb => ?_, fun counts b hb => ?_,
    fun counts b => foldl_trimBump (jsSplit '&' b.authors) counts⟩
  · simp only [dashboardAuthorStep, hb]; rfl
  · simp only [dashboardLangStep, hb]; rfl
  · simp only [dashboardLangStep, if_pos hb]

/-- C9, witness at the record with authors `"Ann Lee & Bo Kim"` and empty
languages. -/
theorem C9_witness :
    dashboardAuthorStep [] annBook = bump (bump [] "Ann Lee") "Bo Kim" ∧
    dashboardLangStep [] annBook = bump [] "Unknown" :=
  ⟨C9_aggregation.1 [] annBook rfl, C9_aggregation.2.1 [] annBook rfl⟩

/-- C10: a non-blank query whose parsed tokens are all boolean operator
keywords (e.g. `"AND"` or `"or or"`) matches no record — `advancedSearch`
returns false, in contrast to the blank query which matches every
record. -/
theorem C10_allOperators (b : Book) (q : String) (hq : jsTrim q ≠ "")
    (hall : ∀ t ∈ parseQuery q, t.type = .operator) :
    advancedSearch b q = false := by
  have hne := parseQuery_ne_nil q hq
  have hsplit : splitOrGroups (parseQuery q) = [] :=
    splitOrGroups_all_ops (parseQuery q) fun t ht =>
      ⟨hall t ht, parseQuery_operator_value q t ht (hall t ht)⟩
  simp [advancedSearch, if_neg hq, if_neg hne, hsplit]

/-- C10, witness at the query `"or or"`. -/
theorem C10_witness : advancedSearch sampleBook "or or" = false :=
  C10_allOperators sampleBook "or or" (by decide) (by decide)

end Catalog
